import Mathlib

/-!
Verification of the deployment state-propagation, retry-classification and
secret-reconciliation subsystem of `microsoft/apisix-az-genai-accelerator`.

The Python sources embedded here are
`gateway_ops/_deploy_common.py` (error classifiers, tenacity-wrapped
`terraform_init_remote` / `terraform_apply`, tfvars document handling,
state addressing) and `gateway_ops/_openai_secrets.py`
(`seed_openai_secrets` and its helpers).

Pure Python string/dict operations are modelled on `List Char` /
association lists; the Key Vault is modelled as a map from secret names to
entries, with secret reads/writes threaded explicitly and recorded in an
operation trace.
-/

set_option autoImplicit false

namespace GatewayOps

/-! ## Python-style string helpers -/

/-- Does the character list `l` start with the pattern `pat`? -/
def hasPre : List Char → List Char → Bool
  | _, [] => true
  | [], _ :: _ => false
  | c :: cs, p :: ps => c == p && hasPre cs ps

/-- Does `pat` occur as a contiguous sublist of the list? -/
def occursIn (pat : List Char) : List Char → Bool
  | [] => pat.isEmpty
  | c :: rest => hasPre (c :: rest) pat || occursIn pat rest

/-- Python `needle in haystack` on strings. -/
def pyIn (needle haystack : String) : Bool :=
  occursIn needle.data haystack.data

/-- ASCII lower-casing of one character. -/
def charLower (c : Char) : Char :=
  if 'A' ≤ c ∧ c ≤ 'Z' then Char.ofNat (c.toNat + 32) else c

/-- Python `str.lower()` (ASCII case folding suffices for the marker strings). -/
def pyLower (s : String) : String :=
  ⟨s.data.map charLower⟩

/-- Python `s.rstrip("/")`: drop every trailing `'/'`. -/
def rstripSlash (s : String) : String :=
  ⟨(s.data.reverse.dropWhile (fun c => c == '/')).reverse⟩

/-- Does the string `s` end with `suffix`? (Python `str.endswith`). -/
def pyEndsWith (s sfx : String) : Bool :=
  hasPre s.data.reverse sfx.data.reverse

/-- Drop the last `n` characters of a string. -/
def pyDropRight (s : String) (n : Nat) : String :=
  ⟨s.data.take (s.data.length - n)⟩

/-! ## Error classifiers (`_deploy_common.py` lines 93-147)

Each classifier takes the captured combined output of the failed external
command (the Python code concatenates `exc.stderr` and `exc.output`;
the concatenation is what we model as `message`). -/

/-- `_is_storage_rbac_error` (lines 93-100). -/
def is_storage_rbac_error (message : String) : Bool :=
  let lowered := pyLower message
  pyIn "authorizationpermissionmismatch" lowered
    || pyIn "this request is not authorized to perform this operation" lowered
    || pyIn "status 403" lowered

/-- `_is_request_conflict` (lines 118-133). -/
def is_request_conflict (message : String) : Bool :=
  let lowered := pyLower message
  if pyIn "response 400" lowered || pyIn "invalidresource" lowered
      || pyIn "insufficientquota" lowered then
    false
  else
    pyIn "requestconflict" lowered
      || pyIn "another operation is being performed on the parent resource" lowered
      || pyIn "status code 409" lowered
      || pyIn "response 409" lowered

/-- `_is_fatal_apply_error` (lines 136-147). -/
def is_fatal_apply_error (message : String) : Bool :=
  let lowered := pyLower message
  pyIn "invalidresourceproperties" lowered
    || pyIn "invalid resource properties" lowered
    || pyIn "not supported by the model" lowered
    || pyIn "insufficientquota" lowered
    || pyIn "insufficient quota" lowered
    || pyIn "quota limit" lowered

/-! ## Retry wrapper (tenacity `@retry(reraise=True, ...)`)

`terraform_init_remote` and `terraform_apply` wrap their subprocess call,
translate classified failures into marker exception types, and are wrapped
by tenacity with `reraise=True`, `retry_if_exception_type(...)`,
`stop_after_attempt(n)` and `wait_exponential(multiplier=1, min=mn, max=mx)`.
Attempts are numbered from 1; after a failing attempt `k` whose exception
matches the target type, tenacity sleeps `wait(k)` and retries while
`k < n`; once attempts are exhausted, or on a non-matching exception, the
original exception object is re-raised unmodified. -/

/-- The exception types flowing out of the wrapped terraform helpers:
the two marker exceptions plus the untranslated `CalledProcessError`
(carrying its captured output). -/
inductive TfError where
  | storageRbac (msg : String)
  | requestConflict (msg : String)
  | calledProcess (msg : String)
deriving DecidableEq, Repr

/-- `retry_if_exception_type(StorageRbacPropagationError)`. -/
def isStorageRbacException : TfError → Bool
  | .storageRbac _ => true
  | _ => false

/-- `retry_if_exception_type(RequestConflictError)`. -/
def isRequestConflictException : TfError → Bool
  | .requestConflict _ => true
  | _ => false

/-- tenacity `wait_exponential(multiplier, min, max)` at 1-based attempt
number `attempt`: the exponential value clamped into `[mn, mx]`. -/
def waitExponential (mult mn mx attempt : Nat) : Nat :=
  Nat.max mn (Nat.min (mult * 2 ^ attempt) mx)

/-- Result of a retry-wrapped run: the final outcome, the number of the
last attempt executed, and the list of sleeps performed (in order). -/
structure RetryRun where
  outcome : Except TfError Unit
  attempts : Nat
  sleeps : List Nat
deriving Repr

/-- One retry-wrapped execution. `fuel` is the number of retries still
allowed after the current attempt; `attempt` is the 1-based attempt
number. On success stop; on a target-classified failure with fuel left,
sleep `wait attempt` and retry; otherwise re-raise the original error. -/
def retryGo (isTarget : TfError → Bool) (wait : Nat → Nat)
    (op : Nat → Except TfError Unit) : Nat → Nat → RetryRun
  | 0, attempt =>
    match op attempt with
    | .ok _ => ⟨.ok (), attempt, []⟩
    | .error e => ⟨.error e, attempt, []⟩
  | fuel + 1, attempt =>
    match op attempt with
    | .ok _ => ⟨.ok (), attempt, []⟩
    | .error e =>
      if isTarget e then
        let r := retryGo isTarget wait op fuel (attempt + 1)
        ⟨r.outcome, r.attempts, wait attempt :: r.sleeps⟩
      else ⟨.error e, attempt, []⟩

/-- `@retry(reraise=True, retry=retry_if_exception_type(target),
stop=stop_after_attempt(maxAttempts), wait=wait)` around `op`. -/
def retryRun (isTarget : TfError → Bool) (wait : Nat → Nat)
    (op : Nat → Except TfError Unit) (maxAttempts : Nat) : RetryRun :=
  retryGo isTarget wait op (maxAttempts - 1) 1

/-- The body of `terraform_init_remote` (lines 373-402): run terraform
init; on failure translate a storage-RBAC-classified output into
`StorageRbacPropagationError`, otherwise re-raise the original error.
`out = none` models success; `out = some msg` a failure with captured
output `msg`. -/
def terraform_init_remote_once (out : Option String) : Except TfError Unit :=
  match out with
  | none => .ok ()
  | some msg =>
    .error (if is_storage_rbac_error msg then .storageRbac msg else .calledProcess msg)

/-- `terraform_init_remote` with its decorator (lines 366-403):
8 attempts, `wait_exponential(multiplier=1, min=2, max=30)`, targeting
`StorageRbacPropagationError`. `outs n` is the outcome of attempt `n`. -/
def terraform_init_remote (outs : Nat → Option String) : RetryRun :=
  retryRun isStorageRbacException (waitExponential 1 2 30)
    (fun n => terraform_init_remote_once (outs n)) 8

/-- The body of `terraform_apply` (lines 412-428): run terraform apply;
on failure raise `RequestConflictError` only when the output classifies
as a request conflict and not as a fatal apply error. -/
def terraform_apply_once (out : Option String) : Except TfError Unit :=
  match out with
  | none => .ok ()
  | some msg =>
    .error (if is_request_conflict msg && !is_fatal_apply_error msg then
        .requestConflict msg
      else .calledProcess msg)

/-- `terraform_apply` with its decorator (lines 405-428): 5 attempts,
`wait_exponential(multiplier=1, min=5, max=60)`, targeting
`RequestConflictError`. -/
def terraform_apply (outs : Nat → Option String) : RetryRun :=
  retryRun isRequestConflictException (waitExponential 1 5 60)
    (fun n => terraform_apply_once (outs n)) 5

/-! ## State addressing (`_deploy_common.py` lines 440-453) -/

/-- `state_key` (lines 447-453). -/
def state_key (pfx filename : String) : String :=
  let normalized := rstripSlash pfx
  if normalized ≠ "" then normalized ++ "/" ++ filename ++ ".tfstate"
  else filename ++ ".tfstate"

/-- `state_prefix_from_blob` (lines 440-444). -/
def statePrefixFromBlob (blobKey : String) : String :=
  let sfx := "/terraform.tfstate"
  if pyEndsWith blobKey sfx then pyDropRight blobKey sfx.length
  else blobKey

/-! ## TFVars documents (`_deploy_common.py` lines 184-306)

A parsed tfvars document is a Python `dict` whose insertion order is
significant, modelled as an association list with unique keys.  `dictSet`
is dict assignment `d[k] = v` (replace in place, or append when absent);
`pyGet` is `d.get(k)`. -/

/-- HCL values as produced by the `hcl2` parser. -/
inductive TfValue where
  | boolV (b : Bool)
  | numV (n : Int)
  | strV (s : String)
  | listV (xs : List TfValue)
  | mapV (kvs : List (String × TfValue))

/-- Python `d.get(k)` on an association list (first binding wins). -/
def pyGet {V : Type} : List (String × V) → String → Option V
  | [], _ => none
  | p :: rest, k => if p.1 = k then some p.2 else pyGet rest k

/-- Python `d[k] = v`: replace the binding of `k` in place, or append a new
binding when `k` is absent. -/
def dictSet {V : Type} : List (String × V) → String → V → List (String × V)
  | [], k, v => [(k, v)]
  | p :: rest, k, v => if p.1 = k then (k, v) :: rest else p :: dictSet rest k v

/-- Python `base.update(upd)`: assign every binding of `upd` into `base`,
in order. -/
def dictUpdate {V : Type} (base upd : List (String × V)) : List (String × V) :=
  upd.foldl (fun d p => dictSet d p.1 p.2) base

/-- The keys of a document, in order. -/
def dictKeys {V : Type} (d : List (String × V)) : List String :=
  d.map Prod.fst

/-- `update_tfvars` (lines 257-263) at the document level: walk the update
entries in order, assigning each entry whose value is non-`None`; a `None`
value (`none` here) leaves the key untouched. -/
def update_tfvars (data : List (String × TfValue)) :
    List (String × Option TfValue) → List (String × TfValue)
  | [] => data
  | (_, none) :: rest => update_tfvars data rest
  | (k, some v) :: rest => update_tfvars (dictSet data k v) rest

/-- The state of the `<env>.tfvars` target file for `ensure_tfvars`. -/
inductive TargetFile where
  | absent
  | unparseable
  | parsed (doc : List (String × TfValue))

/-- The files of a stack directory that `ensure_tfvars` consults:
the target plus the two example candidates, in candidate order
(`terraform.tfvars.<env>.example`, then `<env>.tfvars.example`);
`none` means the candidate file does not exist. -/
structure StackDir where
  target : TargetFile
  exampleA : Option (List (String × TfValue))
  exampleB : Option (List (String × TfValue))

/-- `ensure_tfvars` (lines 266-306) at the document level.  A missing
target with no example raises `FileNotFoundError` (`.error`); otherwise
the base document is derived per the source branches, the three context
keys are forced (last-write-wins), and the result is written back. -/
def ensure_tfvars (sd : StackDir) (env subscription_id tenant_id : String) :
    Except String (List (String × TfValue)) :=
  let exampleDoc := match sd.exampleA with
    | some e => some e
    | none => sd.exampleB
  let base? : Except String (List (String × TfValue)) :=
    match sd.target with
    | .absent =>
      match exampleDoc with
      | none => .error "No tfvars present for env and no example tfvars found"
      | some ex => .ok ex
    | .unparseable =>
      match exampleDoc with
      | some ex => .ok (dictUpdate ex [])
      | none => .ok []
    | .parsed cur =>
      match exampleDoc with
      | some ex => .ok (dictUpdate ex cur)
      | none => .ok cur
  match base? with
  | .error e => .error e
  | .ok base =>
    .ok (dictSet (dictSet (dictSet base
          "subscription_id" (.strV subscription_id))
          "tenant_id" (.strV tenant_id))
          "environment_code" (.strV env))

/-! ## Secret reconciler (`_openai_secrets.py`)

The Key Vault is a map from secret names to entries; reads and writes are
threaded explicitly and recorded in a trace. -/

/-- A stored secret: its value and its tag dictionary, as returned by
`az keyvault secret show` (lines 90-120). -/
structure SecretEntry where
  value : Option String
  tags : List (String × String)

/-- The secret store. -/
def Vault : Type := String → Option SecretEntry

/-- `_read_existing_secret` (lines 90-120): not-found yields `(None, {})`. -/
def read_existing_secret (vault : Vault) (name : String) :
    Option String × List (String × String) :=
  match vault name with
  | none => (none, [])
  | some entry => (entry.value, entry.tags)

/-- Python `tags.get(key, "")`. -/
def tagGet (tags : List (String × String)) (key : String) : String :=
  match pyGet tags key with
  | none => ""
  | some v => v

/-- `set_secret_with_retry` (lines 57-87) on the vault model: store the
value with the given tags. -/
def set_secret (vault : Vault) (name value : String)
    (tags : List (String × String)) : Vault :=
  fun n => if n = name then some ⟨some value, tags⟩ else vault n

/-- `PLACEHOLDER_VALUE` (line 31). -/
def PLACEHOLDER_VALUE : String := "pending-foundry"

/-- `PLACEHOLDER_TAGS` (line 32). -/
def PLACEHOLDER_TAGS : List (String × String) :=
  [("source", "pending"), ("provenance", "workload")]

/-- `FOUNDATION_TAGS` (line 33). -/
def FOUNDATION_TAGS : List (String × String) :=
  [("source", "foundry")]

/-- The worker of `_dedupe_preserve_order` (lines 155-163). -/
def dedupeGo (seen : List String) : List String → List String
  | [] => []
  | x :: rest =>
    if seen.contains x then dedupeGo seen rest
    else x :: dedupeGo (x :: seen) rest

/-- `_dedupe_preserve_order` (lines 155-163). -/
def dedupe_preserve_order (items : List String) : List String :=
  dedupeGo [] items

/-- The summary dict returned by `seed_openai_secrets`. -/
structure SeedSummary where
  seeded : List String
  placeholders : List String
  unchanged : List String
  skipped : List String
deriving DecidableEq, Repr

/-- One secret-store operation, for the frame-effect statements. -/
inductive VaultOp where
  | read (name : String)
  | write (name value : String) (tags : List (String × String))

/-- Is the operation a read? -/
def VaultOp.isRead : VaultOp → Bool
  | .read _ => true
  | .write _ _ _ => false

/-- The result of `seed_openai_secrets`: the returned summary, the final
vault state, and the trace of secret-store operations performed. -/
structure SeedResult where
  summary : SeedSummary
  vault : Vault
  trace : List VaultOp

/-- The per-candidate loop of `seed_openai_secrets` (lines 220-255):
for the candidate at position `idx`, compute the desired value, read the
existing secret, and walk the decision branches in source order; the
write branch stores the desired value with the desired tags. -/
def seedLoop (hasReal : Bool) (desiredTags : List (String × String))
    (placeholderValue : String) (provValues : List String) :
    List String → Nat → Vault → SeedResult
  | [], _, vault => ⟨⟨[], [], [], []⟩, vault, []⟩
  | name :: rest, idx, vault =>
    let desiredValue := if hasReal then provValues.getD idx "" else placeholderValue
    let r := read_existing_secret vault name
    let existingValue := r.1
    let existingSource := tagGet r.2 "source"
    if hasReal ∧ existingSource = "foundry" ∧ existingValue = some desiredValue then
      let res := seedLoop hasReal desiredTags placeholderValue provValues rest (idx + 1) vault
      ⟨{ res.summary with unchanged := name :: res.summary.unchanged },
        res.vault, .read name :: res.trace⟩
    else if ¬hasReal ∧ existingSource = "foundry" then
      let res := seedLoop hasReal desiredTags placeholderValue provValues rest (idx + 1) vault
      ⟨{ res.summary with skipped := name :: res.summary.skipped },
        res.vault, .read name :: res.trace⟩
    else if ¬hasReal ∧ existingSource = "pending" ∧ existingValue = some desiredValue then
      let res := seedLoop hasReal desiredTags placeholderValue provValues rest (idx + 1) vault
      ⟨{ res.summary with unchanged := name :: res.summary.unchanged },
        res.vault, .read name :: res.trace⟩
    else
      let vault' := set_secret vault name desiredValue desiredTags
      let res := seedLoop hasReal desiredTags placeholderValue provValues rest (idx + 1) vault'
      if hasReal then
        ⟨{ res.summary with seeded := name :: res.summary.seeded },
          res.vault, .read name :: .write name desiredValue desiredTags :: res.trace⟩
      else
        ⟨{ res.summary with placeholders := name :: res.summary.placeholders },
          res.vault, .read name :: .write name desiredValue desiredTags :: res.trace⟩

/-- The provisioned secret names obtained from `_load_foundry_outputs`
(lines 193-196): `None` (stage absent/unreadable) yields the empty list. -/
def provisioned_names_of : Option (List String × List String) → List String
  | none => []
  | some p => p.1

/-- The provisioned secret values from `_load_foundry_outputs`. -/
def provisioned_values_of : Option (List String × List String) → List String
  | none => []
  | some p => p.2

/-- `has_real_values` (lines 209-211): provisioned names are non-empty and
their count equals the provisioned-values count. -/
def has_real_values (provNames provValues : List String) : Bool :=
  decide (0 < provNames.length) && decide (provNames.length = provValues.length)

/-- The candidate-name computation of `seed_openai_secrets`
(lines 198-203): provisioned names if non-empty, else the de-duplicated
expected names, else (when placeholders are allowed) the synthetic
fallback name. -/
def candidate_names (foundryOutputs : Option (List String × List String))
    (expectedSecretNames : List String) (allowPlaceholders : Bool) : List String :=
  let provisionedNames := provisioned_names_of foundryOutputs
  let first :=
    if provisionedNames ≠ [] then provisionedNames
    else dedupe_preserve_order expectedSecretNames
  if first = [] ∧ allowPlaceholders then ["azure-openai-key-0"] else first

/-- `seed_openai_secrets` (lines 166-272) from the point where the foundry
outputs have been obtained.  `foundryOutputs` is the result of
`_load_foundry_outputs`; `expectedSecretNames` models
`expected_secret_names or []`. -/
def seed_openai_secrets (foundryOutputs : Option (List String × List String))
    (expectedSecretNames : List String) (allowPlaceholders : Bool)
    (placeholderValue : String) (vault : Vault) : SeedResult :=
  let provisionedNames := provisioned_names_of foundryOutputs
  let provisionedValues := provisioned_values_of foundryOutputs
  let candidateNames := candidate_names foundryOutputs expectedSecretNames allowPlaceholders
  if candidateNames = [] then ⟨⟨[], [], [], []⟩, vault, []⟩
  else
    let hasReal := has_real_values provisionedNames provisionedValues
    let desiredTags := if hasReal then FOUNDATION_TAGS else PLACEHOLDER_TAGS
    seedLoop hasReal desiredTags placeholderValue provisionedValues candidateNames 0 vault

/-! ## Helper lemmas about the retry wrapper -/

/-- The number of the last attempt never exceeds `attempt + fuel`. -/
lemma retryGo_attempts_le (isTarget : TfError → Bool) (wait : Nat → Nat)
    (op : Nat → Except TfError Unit) :
    ∀ fuel attempt, (retryGo isTarget wait op fuel attempt).attempts ≤ attempt + fuel := by
  intro fuel
  induction fuel with
  | zero =>
    intro attempt
    unfold retryGo
    cases op attempt <;> simp
  | succ f ih =>
    intro attempt
    unfold retryGo
    cases op attempt with
    | ok _ => simp
    | error e =>
      by_cases h : isTarget e = true
      · simp only [h, if_true]
        have := ih (attempt + 1)
        omega
      · simp [h]

/-- Every sleep performed is a value of the wait function. -/
lemma retryGo_sleeps_are_waits (isTarget : TfError → Bool) (wait : Nat → Nat)
    (op : Nat → Except TfError Unit) :
    ∀ fuel attempt s, s ∈ (retryGo isTarget wait op fuel attempt).sleeps → ∃ k, s = wait k := by
  intro fuel
  induction fuel with
  | zero =>
    intro attempt s hs
    unfold retryGo at hs
    cases h : op attempt <;> simp [h] at hs
  | succ f ih =>
    intro attempt s hs
    unfold retryGo at hs
    cases h : op attempt with
    | ok _ => simp [h] at hs
    | error e =>
      simp only [h] at hs
      by_cases ht : isTarget e = true
      · simp only [ht, if_true, List.mem_cons] at hs
        rcases hs with rfl | hs
        · exact ⟨attempt, rfl⟩
        · exact ih (attempt + 1) s hs
      · simp [ht] at hs

/-- `wait_exponential(multiplier=1, min=mn, max=mx)` stays within
`[mn, mx]` whenever `mn ≤ mx`. -/
lemma waitExponential_bounds (mn mx k : Nat) (h : mn ≤ mx) :
    mn ≤ waitExponential 1 mn mx k ∧ waitExponential 1 mn mx k ≤ mx := by
  unfold waitExponential
  exact ⟨Nat.le_max_left _ _, Nat.max_le.mpr ⟨h, Nat.min_le_right _ _⟩⟩

/-- When every attempt fails with a target-classified error, the run
exhausts all attempts and ends with the error of the final attempt. -/
lemma retryGo_all_target (isTarget : TfError → Bool) (wait : Nat → Nat)
    (errs : Nat → TfError) (h : ∀ n, isTarget (errs n) = true) :
    ∀ fuel attempt,
      (retryGo isTarget wait (fun n => .error (errs n)) fuel attempt).outcome
        = .error (errs (attempt + fuel))
      ∧ (retryGo isTarget wait (fun n => .error (errs n)) fuel attempt).attempts
        = attempt + fuel := by
  intro fuel
  induction fuel with
  | zero =>
    intro attempt
    unfold retryGo
    simp
  | succ f ih =>
    intro attempt
    unfold retryGo
    simp only [h, if_true]
    rw [show attempt + (f + 1) = (attempt + 1) + f from by omega]
    exact ih (attempt + 1)

/-- A first failure that is not target-classified propagates at once. -/
lemma retryGo_non_target (isTarget : TfError → Bool) (wait : Nat → Nat)
    (e : TfError) (h : isTarget e = false) :
    ∀ fuel attempt,
      retryGo isTarget wait (fun _ => .error e) fuel attempt = ⟨.error e, attempt, []⟩ := by
  intro fuel attempt
  cases fuel with
  | zero => unfold retryGo; rfl
  | succ f => unfold retryGo; simp [h]

/-! ## Helper lemmas about dict operations -/

/-- Lookup after dict assignment: the assigned key reads back the new
value, every other key is untouched. -/
lemma pyGet_dictSet {V : Type} (d : List (String × V)) (k k' : String) (v : V) :
    pyGet (dictSet d k v) k' = if k = k' then some v else pyGet d k' := by
  induction d with
  | nil => simp [dictSet, pyGet]
  | cons p rest ih =>
    by_cases h1 : p.1 = k
    · by_cases h2 : k = k'
      · simp [dictSet, h1, pyGet, h2]
      · have h3 : ¬p.1 = k' := by rw [h1]; exact h2
        simp [dictSet, h1, pyGet, h2, h3]
    · by_cases h2 : p.1 = k'
      · have h3 : ¬k = k' := fun h => h1 (h2.trans h.symm)
        have h4 : ¬k' = k := fun h => h3 h.symm
        simp [dictSet, h1, pyGet, h2, h3, h4]
      · simp [dictSet, h1, pyGet, h2, ih]

/-- A key absent from a document looks up to `none`. -/
lemma pyGet_eq_none_of_not_mem {V : Type} (d : List (String × V)) (k : String)
    (h : k ∉ dictKeys d) : pyGet d k = none := by
  induction d with
  | nil => rfl
  | cons p rest ih =>
    have hmem : k ∈ dictKeys (p :: rest) ↔ (k = p.1 ∨ k ∈ dictKeys rest) := by
      simp [dictKeys]
    have h1 : ¬p.1 = k := fun hh => h (hmem.mpr (Or.inl hh.symm))
    have h2 : k ∉ dictKeys rest := fun hh => h (hmem.mpr (Or.inr hh))
    simp [pyGet, h1, ih h2]

/-- Key membership after dict assignment. -/
lemma dictKeys_dictSet_mem {V : Type} (d : List (String × V)) (k k' : String) (v : V) :
    k' ∈ dictKeys (dictSet d k v) ↔ k' ∈ dictKeys d ∨ k' = k := by
  induction d with
  | nil => simp [dictSet, dictKeys, eq_comm]
  | cons p rest ih =>
    by_cases h1 : p.1 = k
    · simp only [dictSet, h1, if_true, dictKeys, List.map_cons, List.mem_cons]
      constructor
      · rintro (rfl | h)
        · exact Or.inr rfl
        · exact Or.inl (Or.inr h)
      · rintro ((h | h) | rfl)
        · exact Or.inl (h1 ▸ h)
        · exact Or.inr h
        · exact Or.inl rfl
    · simp only [dictSet, h1, if_false, dictKeys, List.map_cons, List.mem_cons]
      rw [show (List.map Prod.fst (dictSet rest k v)) = dictKeys (dictSet rest k v) from rfl,
        ih]
      simp [dictKeys]
      tauto

/-! ## Claim theorems -/

/-- C7: `stateKey("foo/", "x") == stateKey("foo", "x") == "foo/x.tfstate"`,
`stateKey("", "x") == "x.tfstate"`,
`statePrefixFromBlobKey("a/b/terraform.tfstate") == "a/b"`, and
`statePrefixFromBlobKey("a/b/other.tfstate")` is returned unchanged. -/
theorem C7_state_addressing :
    state_key "foo/" "x" = "foo/x.tfstate"
    ∧ state_key "foo" "x" = "foo/x.tfstate"
    ∧ state_key "" "x" = "x.tfstate"
    ∧ statePrefixFromBlob "a/b/terraform.tfstate" = "a/b"
    ∧ statePrefixFromBlob "a/b/other.tfstate" = "a/b/other.tfstate" := by
  refine ⟨?_, ?_, ?_, ?_, ?_⟩ <;> decide

/-- C3: when the captured output of a failed apply contains any fatal
marker, the failure is re-raised as the original `CalledProcessError`
(never as the retryable `RequestConflictError`), so the retry-wrapped
`terraform_apply` stops after one attempt without sleeping, even when a
conflict marker is also present. -/
theorem C3_fatal_precedence (msg : String)
    (h : is_fatal_apply_error msg = true) :
    terraform_apply_once (some msg) = .error (.calledProcess msg)
    ∧ terraform_apply (fun _ => some msg)
      = ⟨.error (.calledProcess msg), 1, []⟩ := by
  have h1 : (is_request_conflict msg && !is_fatal_apply_error msg) = false := by
    simp [h]
  have h2 : terraform_apply_once (some msg) = .error (.calledProcess msg) := by
    simp [terraform_apply_once, h1]
  refine ⟨h2, ?_⟩
  have hop : (fun (_ : Nat) => terraform_apply_once (some msg))
      = fun _ => Except.error (TfError.calledProcess msg) := funext fun _ => h2
  show retryRun isRequestConflictException (waitExponential 1 5 60)
      (fun _ => terraform_apply_once (some msg)) 5
      = ⟨.error (.calledProcess msg), 1, []⟩
  rw [hop]
  unfold retryRun
  exact retryGo_non_target _ _ _ rfl _ _

/-- C3 witness: an output containing both `RequestConflict` and
`InsufficientQuota` is fatal and is not retried. -/
theorem C3_fatal_precedence_witness :
    is_fatal_apply_error "RequestConflict InsufficientQuota" = true
    ∧ (terraform_apply_once (some "RequestConflict InsufficientQuota")
        = .error (.calledProcess "RequestConflict InsufficientQuota")
      ∧ terraform_apply (fun _ => some "RequestConflict InsufficientQuota")
        = ⟨.error (.calledProcess "RequestConflict InsufficientQuota"), 1, []⟩) :=
  ⟨by decide, C3_fatal_precedence "RequestConflict InsufficientQuota" (by decide)⟩

/-- C8: an output containing `"status 403"` or
`"authorizationpermissionmismatch"` (after lower-casing) classifies as a
storage-RBAC-propagation error, and the backend-init retry policy retries
it to exhaustion: 8 attempts with sleeps `[2, 4, 8, 16, 30, 30, 30]`, and
in any run at most 8 attempts with every sleep within `[2, 30]`. -/
theorem C8_storage_rbac_retry (msg : String)
    (h : pyIn "status 403" (pyLower msg) = true
      ∨ pyIn "authorizationpermissionmismatch" (pyLower msg) = true) :
    is_storage_rbac_error msg = true
    ∧ (terraform_init_remote (fun _ => some msg)).attempts = 8
    ∧ (terraform_init_remote (fun _ => some msg)).sleeps = [2, 4, 8, 16, 30, 30, 30]
    ∧ (∀ outs, (terraform_init_remote outs).attempts ≤ 8
        ∧ ∀ s ∈ (terraform_init_remote outs).sleeps, 2 ≤ s ∧ s ≤ 30) := by
  have hcls : is_storage_rbac_error msg = true := by
    unfold is_storage_rbac_error
    rcases h with h | h <;> simp [h]
  have honce : terraform_init_remote_once (some msg) = .error (.storageRbac msg) := by
    simp [terraform_init_remote_once, hcls]
  have hkey : terraform_init_remote (fun _ => some msg)
      = retryGo isStorageRbacException (waitExponential 1 2 30)
          (fun _ => Except.error (TfError.storageRbac msg)) 7 1 := by
    show retryRun isStorageRbacException (waitExponential 1 2 30)
        (fun _ => terraform_init_remote_once (some msg)) 8 = _
    rw [show (fun (_ : Nat) => terraform_init_remote_once (some msg))
        = fun _ => Except.error (TfError.storageRbac msg) from funext fun _ => honce]
    rfl
  refine ⟨hcls, ?_, ?_, ?_⟩
  · rw [hkey]; rfl
  · rw [hkey]; rfl
  · intro outs
    constructor
    · have := retryGo_attempts_le isStorageRbacException (waitExponential 1 2 30)
        (fun n => terraform_init_remote_once (outs n)) 7 1
      simpa [terraform_init_remote, retryRun] using this
    · intro s hs
      have := retryGo_sleeps_are_waits isStorageRbacException (waitExponential 1 2 30)
        (fun n => terraform_init_remote_once (outs n)) 7 1 s
        (by simpa [terraform_init_remote, retryRun] using hs)
      rcases this with ⟨k, rfl⟩
      exact waitExponential_bounds 2 30 k (by omega)

/-- C8 witness: a concrete `status 403` / `AuthorizationPermissionMismatch`
output is classified and retried to exhaustion within the bounds. -/
theorem C8_storage_rbac_retry_witness :
    pyIn "status 403" (pyLower "Status 403: AuthorizationPermissionMismatch") = true
    ∧ is_storage_rbac_error "Status 403: AuthorizationPermissionMismatch" = true
    ∧ (terraform_init_remote
        (fun _ => some "Status 403: AuthorizationPermissionMismatch")).attempts = 8
    ∧ (terraform_init_remote
        (fun _ => some "Status 403: AuthorizationPermissionMismatch")).sleeps
      = [2, 4, 8, 16, 30, 30, 30] :=
  ⟨by decide,
    (C8_storage_rbac_retry _ (Or.inl (by decide))).1,
    (C8_storage_rbac_retry _ (Or.inl (by decide))).2.1,
    (C8_storage_rbac_retry _ (Or.inl (by decide))).2.2.1⟩

/-- C4: (i) when every attempt fails with a target-classified error and
attempts are exhausted, the retry wrapper re-raises the original error of
the final attempt unmodified; (ii) a non-target failure propagates
immediately with no sleep; (iii) for `terraform_apply`, an all-conflict
run ends with the `RequestConflictError` carrying the final attempt's
captured output. -/
theorem C4_retry_reraise_original :
    (∀ (isTarget : TfError → Bool) (wait : Nat → Nat) (errs : Nat → TfError)
        (maxAttempts : Nat), 1 ≤ maxAttempts → (∀ n, isTarget (errs n) = true) →
      (retryRun isTarget wait (fun n => .error (errs n)) maxAttempts).outcome
        = .error (errs maxAttempts)
      ∧ (retryRun isTarget wait (fun n => .error (errs n)) maxAttempts).attempts
        = maxAttempts)
    ∧ (∀ (isTarget : TfError → Bool) (wait : Nat → Nat) (e : TfError)
        (maxAttempts : Nat), isTarget e = false →
      retryRun isTarget wait (fun _ => .error e) maxAttempts = ⟨.error e, 1, []⟩)
    ∧ (∀ msgs : Nat → String,
        (∀ n, is_request_conflict (msgs n) = true ∧ is_fatal_apply_error (msgs n) = false) →
      (terraform_apply (fun n => some (msgs n))).outcome
        = .error (.requestConflict (msgs 5))
      ∧ (terraform_apply (fun n => some (msgs n))).attempts = 5) := by
  refine ⟨?_, ?_, ?_⟩
  · intro isTarget wait errs maxAttempts hmax h
    have := retryGo_all_target isTarget wait errs h (maxAttempts - 1) 1
    unfold retryRun
    have harith : 1 + (maxAttempts - 1) = maxAttempts := by omega
    rw [harith] at this
    exact this
  · intro isTarget wait e maxAttempts h
    unfold retryRun
    exact retryGo_non_target isTarget wait e h (maxAttempts - 1) 1
  · intro msgs h
    have hop : (fun n => terraform_apply_once (some (msgs n)))
        = fun n => Except.error (TfError.requestConflict (msgs n)) := by
      funext n
      simp [terraform_apply_once, (h n).1, (h n).2]
    simp only [terraform_apply, retryRun]
    rw [hop]
    exact retryGo_all_target isRequestConflictException (waitExponential 1 5 60)
      (fun n => .requestConflict (msgs n)) (fun n => rfl) 4 1

/-- C6: merging an update map `U` into a document `D` leaves every key of
`D` outside `U` unchanged, sets every key of `U` bound to a non-null value
to that value, and treats a null-valued entry of `U` as an explicit no-op
on its key. -/
theorem C6_update_tfvars (D : List (String × TfValue))
    (U : List (String × Option TfValue)) (hU : (dictKeys U).Nodup) :
    (∀ k, pyGet U k = none → pyGet (update_tfvars D U) k = pyGet D k)
    ∧ (∀ k v, pyGet U k = some (some v) → pyGet (update_tfvars D U) k = some v)
    ∧ (∀ k, pyGet U k = some none → pyGet (update_tfvars D U) k = pyGet D k) := by
  induction U generalizing D with
  | nil =>
    refine ⟨fun k _ => rfl, fun k v h => by simp [pyGet] at h, fun k h => by simp [pyGet] at h⟩
  | cons u rest ih =>
    obtain ⟨k₀, w⟩ := u
    have hk₀ : k₀ ∉ dictKeys rest := by
      simp only [dictKeys, List.map_cons, List.nodup_cons] at hU
      exact hU.1
    have hrest : (dictKeys rest).Nodup := by
      simp only [dictKeys, List.map_cons, List.nodup_cons] at hU
      exact hU.2
    have hnone : pyGet rest k₀ = none := pyGet_eq_none_of_not_mem rest k₀ hk₀
    cases w with
    | none =>
      refine ⟨?_, ?_, ?_⟩
      · intro k hk
        simp only [pyGet] at hk
        by_cases h : k₀ = k
        · simp [h] at hk
        · simp only [h, if_false] at hk
          exact (ih D hrest).1 k hk
      · intro k v hk
        simp only [pyGet] at hk
        by_cases h : k₀ = k
        · simp [h] at hk
        · simp only [h, if_false] at hk
          exact (ih D hrest).2.1 k v hk
      · intro k hk
        simp only [pyGet] at hk
        by_cases h : k₀ = k
        · subst h
          exact (ih D hrest).1 k₀ hnone
        · simp only [h, if_false] at hk
          exact (ih D hrest).2.2 k hk
    | some v₀ =>
      refine ⟨?_, ?_, ?_⟩
      · intro k hk
        simp only [pyGet] at hk
        by_cases h : k₀ = k
        · simp [h] at hk
        · simp only [h, if_false] at hk
          have := (ih (dictSet D k₀ v₀) hrest).1 k hk
          simp only [update_tfvars]
          rw [this, pyGet_dictSet, if_neg h]
      · intro k v hk
        simp only [pyGet] at hk
        by_cases h : k₀ = k
        · subst h
          simp only [if_true] at hk
          obtain rfl : v₀ = v := by injection hk with hk'; injection hk'
          have := (ih (dictSet D k₀ v₀) hrest).1 k₀ hnone
          simp only [update_tfvars]
          rw [this, pyGet_dictSet, if_pos rfl]
        · simp only [h, if_false] at hk
          exact (ih (dictSet D k₀ v₀) hrest).2.1 k v hk
      · intro k hk
        simp only [pyGet] at hk
        by_cases h : k₀ = k
        · simp [h] at hk
        · simp only [h, if_false] at hk
          have := (ih (dictSet D k₀ v₀) hrest).2.2 k hk
          simp only [update_tfvars]
          rw [this, pyGet_dictSet, if_neg h]

/-- C6 witness: a concrete document and update map exercising all three
clauses (untouched key, updated key, null no-op key). -/
theorem C6_update_tfvars_witness :
    (dictKeys [("b", some (TfValue.strV "2")), ("c", (none : Option TfValue))]).Nodup
    ∧ pyGet (update_tfvars [("a", TfValue.strV "1")]
        [("b", some (TfValue.strV "2")), ("c", none)]) "a"
      = pyGet [("a", TfValue.strV "1")] "a"
    ∧ pyGet (update_tfvars [("a", TfValue.strV "1")]
        [("b", some (TfValue.strV "2")), ("c", none)]) "b"
      = some (TfValue.strV "2")
    ∧ pyGet (update_tfvars [("a", TfValue.strV "1")]
        [("b", some (TfValue.strV "2")), ("c", none)]) "c"
      = pyGet [("a", TfValue.strV "1")] "c" :=
  ⟨by decide,
    (C6_update_tfvars _ _ (by decide)).1 "a" rfl,
    (C6_update_tfvars _ _ (by decide)).2.1 "b" (TfValue.strV "2") rfl,
    (C6_update_tfvars _ _ (by decide)).2.2 "c" rfl⟩

/-- C9: on a stack directory whose target tfvars file is missing but which
has exactly one matching example, `ensure_tfvars` succeeds with a document
whose keys are the example's keys union the three context keys, with the
three context keys forced to the supplied values and every other key
keeping the example's value. -/
theorem C9_ensure_missing_target (ex : List (String × TfValue))
    (env sub ten : String) (sd : StackDir)
    (ht : sd.target = .absent)
    (hex : (sd.exampleA = some ex ∧ sd.exampleB = none)
      ∨ (sd.exampleA = none ∧ sd.exampleB = some ex)) :
    ensure_tfvars sd env sub ten
      = .ok (dictSet (dictSet (dictSet ex "subscription_id" (.strV sub))
          "tenant_id" (.strV ten)) "environment_code" (.strV env))
    ∧ (∀ res, ensure_tfvars sd env sub ten = .ok res →
        pyGet res "subscription_id" = some (.strV sub)
        ∧ pyGet res "tenant_id" = some (.strV ten)
        ∧ pyGet res "environment_code" = some (.strV env)
        ∧ (∀ k, k ≠ "subscription_id" → k ≠ "tenant_id" → k ≠ "environment_code" →
            pyGet res k = pyGet ex k)
        ∧ (∀ k, k ∈ dictKeys res ↔
            (k ∈ dictKeys ex ∨ k = "subscription_id" ∨ k = "tenant_id"
              ∨ k = "environment_code"))) := by
  have hmain : ensure_tfvars sd env sub ten
      = .ok (dictSet (dictSet (dictSet ex "subscription_id" (.strV sub))
          "tenant_id" (.strV ten)) "environment_code" (.strV env)) := by
    rcases hex with ⟨ha, hb⟩ | ⟨ha, hb⟩ <;> simp [ensure_tfvars, ht, ha, hb]
  refine ⟨hmain, ?_⟩
  intro res hres
  rw [hmain] at hres
  obtain rfl : dictSet (dictSet (dictSet ex "subscription_id" (.strV sub))
      "tenant_id" (.strV ten)) "environment_code" (.strV env) = res := by
    injection hres
  refine ⟨?_, ?_, ?_, ?_, ?_⟩
  · rw [pyGet_dictSet, if_neg (by decide), pyGet_dictSet, if_neg (by decide),
      pyGet_dictSet, if_pos rfl]
  · rw [pyGet_dictSet, if_neg (by decide), pyGet_dictSet, if_pos rfl]
  · rw [pyGet_dictSet, if_pos rfl]
  · intro k h1 h2 h3
    rw [pyGet_dictSet, if_neg (fun h => h3 h.symm), pyGet_dictSet,
      if_neg (fun h => h2 h.symm), pyGet_dictSet, if_neg (fun h => h1 h.symm)]
  · intro k
    rw [dictKeys_dictSet_mem, dictKeys_dictSet_mem, dictKeys_dictSet_mem]
    tauto

/-- C9 witness: a concrete one-example stack directory. -/
theorem C9_ensure_missing_target_witness :
    ensure_tfvars ⟨.absent, some [("location", TfValue.strV "eu")], none⟩
        "dev" "sub-1" "ten-1"
      = .ok [("location", TfValue.strV "eu"), ("subscription_id", TfValue.strV "sub-1"),
          ("tenant_id", TfValue.strV "ten-1"), ("environment_code", TfValue.strV "dev")] :=
  (C9_ensure_missing_target [("location", TfValue.strV "eu")] "dev" "sub-1" "ten-1"
    ⟨.absent, some [("location", TfValue.strV "eu")], none⟩ rfl
    (Or.inl ⟨rfl, rfl⟩)).1

/-- C4 witness: concrete exhaustion, immediate propagation, and the
`terraform_apply` instance. -/
theorem C4_retry_reraise_original_witness :
    ((retryRun isStorageRbacException (waitExponential 1 2 30)
        (fun _ => .error (.storageRbac "x")) 8).outcome = .error (.storageRbac "x")
      ∧ (retryRun isStorageRbacException (waitExponential 1 2 30)
        (fun _ => .error (.storageRbac "x")) 8).attempts = 8)
    ∧ retryRun isStorageRbacException (waitExponential 1 2 30)
        (fun _ => .error (.calledProcess "boom")) 8 = ⟨.error (.calledProcess "boom"), 1, []⟩
    ∧ (terraform_apply (fun _ => some "RequestConflict")).outcome
        = .error (.requestConflict "RequestConflict") :=
  ⟨C4_retry_reraise_original.1 isStorageRbacException (waitExponential 1 2 30)
      (fun _ => .storageRbac "x") 8 (by omega) (fun _ => rfl),
    C4_retry_reraise_original.2.1 isStorageRbacException (waitExponential 1 2 30)
      (.calledProcess "boom") 8 rfl,
    (C4_retry_reraise_original.2.2 (fun _ => "RequestConflict")
      (fun _ => ⟨show is_request_conflict "RequestConflict" = true by decide,
        show is_fatal_apply_error "RequestConflict" = false by decide⟩)).1⟩

/-- The vault with no secrets. -/
def emptyVault : Vault := fun _ => none

/-- Without real provisioned values, the seed loop never puts a name into
the `seeded` bucket (it writes placeholders at most). -/
lemma seedLoop_seeded_nil (tags : List (String × String)) (pv : String)
    (pvs : List String) : ∀ (names : List String) (idx : Nat) (vault : Vault),
    (seedLoop false tags pv pvs names idx vault).summary.seeded = [] := by
  intro names
  induction names with
  | nil => intro idx vault; rfl
  | cons n rest ih =>
    intro idx vault
    simp only [seedLoop]
    split_ifs <;> first
      | exact False.elim (by assumption)
      | simpa using ih (idx + 1) vault
      | simpa using ih (idx + 1) (set_secret vault n pv tags)

/-- C5 counterexample: with mismatched provisioned name/value lists the
run does not fail; it proceeds with placeholder semantics and writes
placeholder secrets for the provisioned names. -/
theorem C5_counterexample :
    has_real_values ["k1", "k2"] ["v1"] = false
    ∧ (seed_openai_secrets (some (["k1", "k2"], ["v1"])) [] true
        PLACEHOLDER_VALUE emptyVault).summary
      = ⟨[], ["k1", "k2"], [], []⟩ := by
  exact ⟨by decide, rfl⟩

/-- C5 (amended): a provisioned name/value count mismatch is degraded to
"no real values" — the run proceeds (no configuration error), and nothing
is ever recorded as seeded with a real value. -/
theorem C5_mismatch_degraded (names values expected : List String)
    (allowPlaceholders : Bool) (pv : String) (vault : Vault)
    (h : names.length ≠ values.length) :
    has_real_values names values = false
    ∧ (seed_openai_secrets (some (names, values)) expected allowPlaceholders
        pv vault).summary.seeded = [] := by
  have hreal : has_real_values names values = false := by
    simp [has_real_values, h]
  refine ⟨hreal, ?_⟩
  unfold seed_openai_secrets
  simp only [provisioned_names_of, provisioned_values_of, hreal]
  split_ifs
  · rfl
  all_goals exact seedLoop_seeded_nil _ pv values _ 0 vault

/-- C5 witness for the amended claim. -/
theorem C5_mismatch_degraded_witness :
    (["k1", "k2"] : List String).length ≠ (["v1"] : List String).length
    ∧ has_real_values ["k1", "k2"] ["v1"] = false
    ∧ (seed_openai_secrets (some (["k1", "k2"], ["v1"])) [] true
        PLACEHOLDER_VALUE emptyVault).summary.seeded = [] :=
  ⟨by decide,
    (C5_mismatch_degraded ["k1", "k2"] ["v1"] [] true PLACEHOLDER_VALUE emptyVault
      (by decide)).1,
    (C5_mismatch_degraded ["k1", "k2"] ["v1"] [] true PLACEHOLDER_VALUE emptyVault
      (by decide)).2⟩

/-- C10: with no provisioned names, an empty de-duplicated expected list
and placeholders disallowed, `seed_openai_secrets` returns four empty
buckets, leaves the vault untouched and performs no secret-store
operation at all. -/
theorem C10_no_candidates_no_effect (fo : Option (List String × List String))
    (expected : List String) (pv : String) (vault : Vault)
    (h1 : provisioned_names_of fo = [])
    (h2 : dedupe_preserve_order expected = []) :
    seed_openai_secrets fo expected false pv vault = ⟨⟨[], [], [], []⟩, vault, []⟩ := by
  have hc : candidate_names fo expected false = [] := by
    simp [candidate_names, h1, h2]
  unfold seed_openai_secrets
  simp [hc]

/-- C10 witness: the concrete empty-input run. -/
theorem C10_no_candidates_no_effect_witness :
    provisioned_names_of none = []
    ∧ dedupe_preserve_order [] = []
    ∧ seed_openai_secrets none [] false PLACEHOLDER_VALUE emptyVault
      = ⟨⟨[], [], [], []⟩, emptyVault, []⟩ :=
  ⟨rfl, rfl, C10_no_candidates_no_effect none [] PLACEHOLDER_VALUE emptyVault rfl rfl⟩

/-- Writing a different secret does not change the entry at `n`. -/
lemma set_secret_ne (vault : Vault) (m dv : String) (tags : List (String × String))
    (n : String) (h : ¬n = m) : set_secret vault m dv tags n = vault n := by
  simp [set_secret, h]

/-- Reading `n` is unaffected by a write to a different name. -/
lemma read_set_ne (vault : Vault) (m dv : String) (tags : List (String × String))
    (n : String) (h : ¬n = m) :
    read_existing_secret (set_secret vault m dv tags) n = read_existing_secret vault n := by
  simp [read_existing_secret, set_secret, h]

/-- Names not in the candidate list are never written by the seed loop. -/
lemma seedLoop_vault_pres (hasReal : Bool) (tags : List (String × String))
    (pv : String) (pvs : List String) (n : String) :
    ∀ (names : List String) (idx : Nat) (vault : Vault), n ∉ names →
    (seedLoop hasReal tags pv pvs names idx vault).vault n = vault n := by
  intro names
  induction names with
  | nil => intro idx vault _; rfl
  | cons m rest ih =>
    intro idx vault hmem
    have hnm : ¬n = m := fun h => hmem (h ▸ List.mem_cons_self m rest)
    have hrest : n ∉ rest := fun h => hmem (List.mem_cons_of_mem m h)
    simp only [seedLoop]
    split_ifs <;>
      first
      | exact False.elim (by assumption)
      | simpa using ih (idx + 1) vault hrest
      | (show (seedLoop hasReal tags pv pvs rest (idx + 1) _).vault n = vault n
         rw [ih (idx + 1) _ hrest]
         exact set_secret_ne vault m _ tags n hnm)

/-- With no real provisioned values, a candidate whose stored secret is
tagged `source = foundry` is skipped and its vault entry is preserved. -/
lemma seedLoop_foundry_skip (tags : List (String × String)) (pv : String)
    (pvs : List String) (n : String) :
    ∀ (names : List String) (idx : Nat) (vault : Vault),
    tagGet (read_existing_secret vault n).2 "source" = "foundry" →
    (seedLoop false tags pv pvs names idx vault).vault n = vault n
    ∧ (n ∈ names → n ∈ (seedLoop false tags pv pvs names idx vault).summary.skipped) := by
  intro names
  induction names with
  | nil => intro idx vault _; exact ⟨rfl, by simp⟩
  | cons m rest ih =>
    intro idx vault hsrc
    by_cases hm : m = n
    · subst hm
      have h1 := ih (idx + 1) vault hsrc
      simp only [seedLoop]
      rw [if_neg (by simp), if_pos ⟨by simp, hsrc⟩]
      refine ⟨h1.1, fun _ => ?_⟩
      simpa using Or.inl rfl
    · have hnm : ¬n = m := fun h => hm h.symm
      have hmemr : n ∈ m :: rest → n ∈ rest := by
        intro h
        rcases List.mem_cons.mp h with h | h
        · exact absurd h hnm
        · exact h
      simp only [seedLoop]
      split_ifs <;>
        first
        | exact False.elim (by assumption)
        | (refine ⟨by simpa using (ih (idx + 1) vault hsrc).1, fun hn => ?_⟩
           simpa using Or.inr ((ih (idx + 1) vault hsrc).2 (hmemr hn)))
        | (refine ⟨by simpa using (ih (idx + 1) vault hsrc).1, fun hn => ?_⟩
           simpa using (ih (idx + 1) vault hsrc).2 (hmemr hn))
        | (have hsrc' : tagGet (read_existing_secret
              (set_secret vault m pv tags) n).2 "source" = "foundry" := by
             rw [read_set_ne _ _ _ _ _ hnm]; exact hsrc
           refine ⟨?_, fun hn => ?_⟩
           · show (seedLoop false tags pv pvs rest (idx + 1)
                (set_secret vault m pv tags)).vault n = vault n
             rw [(ih (idx + 1) _ hsrc').1]
             exact set_secret_ne vault m _ tags n hnm
           · simpa using (ih (idx + 1) _ hsrc').2 (hmemr hn))

/-- C1: a secret tagged `source = foundry` is never overwritten with a
placeholder: when no real provisioned values are available, every
candidate whose stored entry is foundry-tagged is reported in the
`skipped` bucket and its stored entry (hence its value `V`) is preserved,
for any placeholder value `P ≠ V`. -/
theorem C1_foundry_never_downgraded (fo : Option (List String × List String))
    (expected : List String) (allowPlaceholders : Bool) (pv V : String)
    (vault : Vault) (n : String) (tags0 : List (String × String))
    (hreal : has_real_values (provisioned_names_of fo) (provisioned_values_of fo) = false)
    (hentry : vault n = some ⟨some V, tags0⟩)
    (hsrc : tagGet tags0 "source" = "foundry")
    (hmem : n ∈ candidate_names fo expected allowPlaceholders)
    (hpv : pv ≠ V) :
    n ∈ (seed_openai_secrets fo expected allowPlaceholders pv vault).summary.skipped
    ∧ (seed_openai_secrets fo expected allowPlaceholders pv vault).vault n
      = some ⟨some V, tags0⟩ := by
  have hne : ¬candidate_names fo expected allowPlaceholders = [] := by
    intro h
    rw [h] at hmem
    exact absurd hmem (List.not_mem_nil n)
  have hread : tagGet (read_existing_secret vault n).2 "source" = "foundry" := by
    simp [read_existing_secret, hentry, hsrc]
  have hskip := seedLoop_foundry_skip
    (if has_real_values (provisioned_names_of fo) (provisioned_values_of fo)
      then FOUNDATION_TAGS else PLACEHOLDER_TAGS) pv (provisioned_values_of fo) n
    (candidate_names fo expected allowPlaceholders) 0 vault hread
  unfold seed_openai_secrets
  rw [if_neg hne]
  rw [hreal] at hskip ⊢
  exact ⟨hskip.2 hmem, hskip.1.trans hentry⟩

/-- The concrete vault for the C1 witness: one foundry-tagged secret. -/
def foundryVault : Vault :=
  fun x => if x = "azure-openai-key-0" then
    some ⟨some "real-key", [("source", "foundry")]⟩
  else none

/-- C1 witness: a concrete foundry-tagged secret survives a placeholder
run and is reported as skipped. -/
theorem C1_foundry_never_downgraded_witness :
    has_real_values (provisioned_names_of none) (provisioned_values_of none) = false
    ∧ foundryVault "azure-openai-key-0" = some ⟨some "real-key", [("source", "foundry")]⟩
    ∧ tagGet [("source", "foundry")] "source" = "foundry"
    ∧ "azure-openai-key-0" ∈ candidate_names none ["azure-openai-key-0"] true
    ∧ PLACEHOLDER_VALUE ≠ "real-key"
    ∧ ("azure-openai-key-0" ∈ (seed_openai_secrets none ["azure-openai-key-0"] true
        PLACEHOLDER_VALUE foundryVault).summary.skipped
      ∧ (seed_openai_secrets none ["azure-openai-key-0"] true
          PLACEHOLDER_VALUE foundryVault).vault "azure-openai-key-0"
        = some ⟨some "real-key", [("source", "foundry")]⟩) :=
  ⟨rfl, rfl, rfl, by decide, by decide,
    C1_foundry_never_downgraded none ["azure-openai-key-0"] true PLACEHOLDER_VALUE
      "real-key" foundryVault "azure-openai-key-0" [("source", "foundry")]
      rfl rfl rfl (by decide) (by decide)⟩

/-- A vault entry is "stable" for candidate position `idx` when the seed
loop's decision table sends that candidate to a no-write row: with real
values, a foundry-tagged entry holding the provisioned value; without
real values, any foundry-tagged entry or a pending-tagged entry holding
the placeholder value. -/
def stableAt (hasReal : Bool) (pv : String) (pvs : List String)
    (idx : Nat) (vault : Vault) (name : String) : Prop :=
  if hasReal then
    tagGet (read_existing_secret vault name).2 "source" = "foundry"
    ∧ (read_existing_secret vault name).1 = some (pvs.getD idx "")
  else
    tagGet (read_existing_secret vault name).2 "source" = "foundry"
    ∨ (tagGet (read_existing_secret vault name).2 "source" = "pending"
      ∧ (read_existing_secret vault name).1 = some pv)

/-- Positional stability of a whole candidate list. -/
def stableList (hasReal : Bool) (pv : String) (pvs : List String) :
    Nat → Vault → List String → Prop
  | _, _, [] => True
  | idx, vault, n :: rest =>
    stableAt hasReal pv pvs idx vault n
    ∧ stableList hasReal pv pvs (idx + 1) vault rest

/-- Stability of one name depends on the vault only at that name. -/
lemma stableAt_congr (hasReal : Bool) (pv : String) (pvs : List String)
    (idx : Nat) (v1 v2 : Vault) (name : String) (h : v1 name = v2 name) :
    stableAt hasReal pv pvs idx v1 name ↔ stableAt hasReal pv pvs idx v2 name := by
  unfold stableAt read_existing_secret
  rw [h]

/-- After one pass of the seed loop over a duplicate-free candidate list,
every candidate's vault entry is stable at its position. -/
lemma seedLoop_establishes (hasReal : Bool) (tags : List (String × String))
    (pv : String) (pvs : List String)
    (htags : tags = if hasReal then FOUNDATION_TAGS else PLACEHOLDER_TAGS) :
    ∀ (names : List String) (idx : Nat) (vault : Vault), names.Nodup →
    stableList hasReal pv pvs idx
      (seedLoop hasReal tags pv pvs names idx vault).vault names := by
  intro names
  induction names with
  | nil => intro idx vault _; trivial
  | cons n rest ih =>
    intro idx vault hnd
    have hn : n ∉ rest := (List.nodup_cons.mp hnd).1
    have hrest : rest.Nodup := (List.nodup_cons.mp hnd).2
    cases hasReal with
    | false =>
      subst htags
      simp only [seedLoop]
      by_cases h2 : tagGet (read_existing_secret vault n).2 "source" = "foundry"
      · rw [if_neg (by simp), if_pos ⟨by simp, h2⟩]
        refine ⟨?_, ih (idx + 1) vault hrest⟩
        rw [stableAt_congr false pv pvs idx _ vault n
          (seedLoop_vault_pres false _ pv pvs n rest (idx + 1) vault hn)]
        simp [stableAt, h2]
      · by_cases h3 : tagGet (read_existing_secret vault n).2 "source" = "pending"
            ∧ (read_existing_secret vault n).1 = some pv
        · rw [if_neg (by simp), if_neg (by simp [h2]), if_pos ⟨by simp, by simpa using h3⟩]
          refine ⟨?_, ih (idx + 1) vault hrest⟩
          rw [stableAt_congr false pv pvs idx _ vault n
            (seedLoop_vault_pres false _ pv pvs n rest (idx + 1) vault hn)]
          simp [stableAt, h3.1, h3.2]
        · rw [if_neg (by simp), if_neg (by simp [h2]), if_neg (by simpa using h3)]
          simp only [Bool.false_eq_true, if_false]
          refine ⟨?_, ih (idx + 1) _ hrest⟩
          have hv : (seedLoop false PLACEHOLDER_TAGS pv pvs rest (idx + 1)
              (set_secret vault n pv PLACEHOLDER_TAGS)).vault n
              = set_secret vault n pv PLACEHOLDER_TAGS n :=
            seedLoop_vault_pres false _ pv pvs n rest (idx + 1) _ hn
          rw [stableAt_congr false pv pvs idx _ _ n hv]
          simp [stableAt, set_secret, read_existing_secret, tagGet, pyGet,
            PLACEHOLDER_TAGS]
    | true =>
      subst htags
      simp only [seedLoop]
      by_cases h1 : tagGet (read_existing_secret vault n).2 "source" = "foundry"
          ∧ (read_existing_secret vault n).1 = some (pvs.getD idx "")
      · rw [if_pos ⟨by trivial, by simpa using h1⟩]
        refine ⟨?_, ih (idx + 1) vault hrest⟩
        rw [stableAt_congr true pv pvs idx _ vault n
          (seedLoop_vault_pres true _ pv pvs n rest (idx + 1) vault hn)]
        simp [stableAt, h1.1, h1.2]
      · rw [if_neg (by simpa using h1), if_neg (by simp), if_neg (by simp)]
        simp only [if_true]
        refine ⟨?_, ih (idx + 1) _ hrest⟩
        have hv : (seedLoop true FOUNDATION_TAGS pv pvs rest (idx + 1)
            (set_secret vault n (pvs.getD idx "") FOUNDATION_TAGS)).vault n
            = set_secret vault n (pvs.getD idx "") FOUNDATION_TAGS n :=
          seedLoop_vault_pres true _ pv pvs n rest (idx + 1) _ hn
        rw [stableAt_congr true pv pvs idx _ _ n hv]
        simp [stableAt, set_secret, read_existing_secret, tagGet, pyGet,
          FOUNDATION_TAGS]

/-- On a stable vault the seed loop writes nothing: it only reads, leaves
the vault untouched, reports nothing seeded and no placeholders, and puts
every candidate into `unchanged` or `skipped`. -/
lemma seedLoop_on_stable (hasReal : Bool) (tags : List (String × String))
    (pv : String) (pvs : List String) :
    ∀ (names : List String) (idx : Nat) (vault : Vault),
    stableList hasReal pv pvs idx vault names →
    (seedLoop hasReal tags pv pvs names idx vault).summary.seeded = []
    ∧ (seedLoop hasReal tags pv pvs names idx vault).summary.placeholders = []
    ∧ (seedLoop hasReal tags pv pvs names idx vault).vault = vault
    ∧ (seedLoop hasReal tags pv pvs names idx vault).trace = names.map VaultOp.read
    ∧ ∀ n ∈ names,
        n ∈ (seedLoop hasReal tags pv pvs names idx vault).summary.unchanged
        ∨ n ∈ (seedLoop hasReal tags pv pvs names idx vault).summary.skipped := by
  intro names
  induction names with
  | nil => intro idx vault _; exact ⟨rfl, rfl, rfl, rfl, by simp⟩
  | cons n rest ih =>
    intro idx vault hstab
    obtain ⟨hAt, hRest⟩ := hstab
    have ihr := ih (idx + 1) vault hRest
    cases hasReal with
    | false =>
      simp only [stableAt, Bool.false_eq_true, if_false] at hAt
      simp only [seedLoop]
      rcases hAt with hf | hp
      · rw [if_neg (by simp), if_pos ⟨by simp, hf⟩]
        refine ⟨ihr.1, ihr.2.1, ihr.2.2.1, ?_, ?_⟩
        · simp [ihr.2.2.2.1]
        · intro x hx
          rcases List.mem_cons.mp hx with rfl | hx
          · exact Or.inr (by simpa using Or.inl rfl)
          · rcases ihr.2.2.2.2 x hx with h | h
            · exact Or.inl (by simpa using h)
            · exact Or.inr (by simpa using Or.inr h)
      · rw [if_neg (by simp), if_neg (by simp [hp.1]), if_pos ⟨by simp, hp.1, hp.2⟩]
        refine ⟨ihr.1, ihr.2.1, ihr.2.2.1, ?_, ?_⟩
        · simp [ihr.2.2.2.1]
        · intro x hx
          rcases List.mem_cons.mp hx with rfl | hx
          · exact Or.inl (by simpa using Or.inl rfl)
          · rcases ihr.2.2.2.2 x hx with h | h
            · exact Or.inl (by simpa using Or.inr h)
            · exact Or.inr (by simpa using h)
    | true =>
      simp only [stableAt, if_true] at hAt
      simp only [seedLoop]
      rw [if_pos ⟨by trivial, hAt.1, hAt.2⟩]
      refine ⟨ihr.1, ihr.2.1, ihr.2.2.1, ?_, ?_⟩
      · simp [ihr.2.2.2.1]
      · intro x hx
        rcases List.mem_cons.mp hx with rfl | hx
        · exact Or.inl (by simpa using Or.inl rfl)
        · rcases ihr.2.2.2.2 x hx with h | h
          · exact Or.inl (by simpa using Or.inr h)
          · exact Or.inr (by simpa using h)

/-- A trace made of reads only contains reads. -/
lemma all_isRead_map (l : List String) :
    (l.map VaultOp.read).all VaultOp.isRead = true := by
  induction l with
  | nil => rfl
  | cons x xs ih => simp [VaultOp.isRead, ih]

/-- C2 counterexample: with an existing foundry-tagged secret and no real
provisioned values, the second identical call reports the candidate as
`skipped` again — not `unchanged` — so the claimed second-call shape
`{seeded: [], placeholders: [], unchanged: [names...], skipped: []}` is
false. -/
theorem C2_counterexample :
    (seed_openai_secrets none ["azure-openai-key-0"] true PLACEHOLDER_VALUE
      (seed_openai_secrets none ["azure-openai-key-0"] true PLACEHOLDER_VALUE
        foundryVault).vault).summary
    = ⟨[], [], [], ["azure-openai-key-0"]⟩ := by
  rfl

/-- C2 (amended): when the candidate names are duplicate-free, a second
`seed_openai_secrets` call with identical inputs and no intervening
external change performs no secret-store write (the vault is returned
unchanged and the trace is all reads), returns `seeded = []` and
`placeholders = []`, and places every candidate into `unchanged` or
`skipped` (a foundry-tagged secret skipped by the first call is skipped
again). -/
theorem C2_second_run_idempotent (fo : Option (List String × List String))
    (expected : List String) (ap : Bool) (pv : String) (vault0 : Vault)
    (hnd : (candidate_names fo expected ap).Nodup) :
    (seed_openai_secrets fo expected ap pv
        (seed_openai_secrets fo expected ap pv vault0).vault).summary.seeded = []
    ∧ (seed_openai_secrets fo expected ap pv
        (seed_openai_secrets fo expected ap pv vault0).vault).summary.placeholders = []
    ∧ (seed_openai_secrets fo expected ap pv
        (seed_openai_secrets fo expected ap pv vault0).vault).vault
      = (seed_openai_secrets fo expected ap pv vault0).vault
    ∧ (seed_openai_secrets fo expected ap pv
        (seed_openai_secrets fo expected ap pv vault0).vault).trace.all VaultOp.isRead = true
    ∧ ∀ n ∈ candidate_names fo expected ap,
        n ∈ (seed_openai_secrets fo expected ap pv
          (seed_openai_secrets fo expected ap pv vault0).vault).summary.unchanged
        ∨ n ∈ (seed_openai_secrets fo expected ap pv
          (seed_openai_secrets fo expected ap pv vault0).vault).summary.skipped := by
  by_cases hc : candidate_names fo expected ap = []
  · unfold seed_openai_secrets
    rw [if_pos hc, if_pos hc]
    exact ⟨rfl, rfl, rfl, rfl, by simp [hc]⟩
  · have hstab := seedLoop_establishes
      (has_real_values (provisioned_names_of fo) (provisioned_values_of fo))
      (if has_real_values (provisioned_names_of fo) (provisioned_values_of fo)
        then FOUNDATION_TAGS else PLACEHOLDER_TAGS)
      pv (provisioned_values_of fo) rfl
      (candidate_names fo expected ap) 0 vault0 hnd
    have hon := seedLoop_on_stable
      (has_real_values (provisioned_names_of fo) (provisioned_values_of fo))
      (if has_real_values (provisioned_names_of fo) (provisioned_values_of fo)
        then FOUNDATION_TAGS else PLACEHOLDER_TAGS)
      pv (provisioned_values_of fo)
      (candidate_names fo expected ap) 0
      ((seedLoop (has_real_values (provisioned_names_of fo) (provisioned_values_of fo))
        (if has_real_values (provisioned_names_of fo) (provisioned_values_of fo)
          then FOUNDATION_TAGS else PLACEHOLDER_TAGS)
        pv (provisioned_values_of fo) (candidate_names fo expected ap) 0 vault0).vault)
      hstab
    unfold seed_openai_secrets
    rw [if_neg hc, if_neg hc]
    refine ⟨hon.1, hon.2.1, hon.2.2.1, ?_, hon.2.2.2.2⟩
    rw [hon.2.2.2.1]
    exact all_isRead_map _

/-- C2 witness for the amended claim: a concrete real-value run where the
second call reports the candidate unchanged and writes nothing. -/
theorem C2_second_run_idempotent_witness :
    (candidate_names (some (["k"], ["v"])) [] true).Nodup
    ∧ (seed_openai_secrets (some (["k"], ["v"])) [] true PLACEHOLDER_VALUE
        (seed_openai_secrets (some (["k"], ["v"])) [] true PLACEHOLDER_VALUE
          emptyVault).vault).summary.seeded = []
    ∧ (seed_openai_secrets (some (["k"], ["v"])) [] true PLACEHOLDER_VALUE
        (seed_openai_secrets (some (["k"], ["v"])) [] true PLACEHOLDER_VALUE
          emptyVault).vault).vault
      = (seed_openai_secrets (some (["k"], ["v"])) [] true PLACEHOLDER_VALUE
          emptyVault).vault :=
  ⟨by decide,
    (C2_second_run_idempotent (some (["k"], ["v"])) [] true PLACEHOLDER_VALUE
      emptyVault (by decide)).1,
    (C2_second_run_idempotent (some (["k"], ["v"])) [] true PLACEHOLDER_VALUE
      emptyVault (by decide)).2.2.1⟩

end GatewayOps
